import Mathlib

/-!
Verification of the annotation ingestion and transformation pipeline of the
asmithaxe python-ai-lib repository.  Python source files are shallowly embedded:
pure computations become Lean functions on `Int`/`String`/`List`, external
collaborators (the PIL image codec, the filesystem) are modelled as explicit
constructors and event lists, and Python exceptions become `Except`/`Option`
results.  All integer arithmetic is Python 3 arbitrary-precision arithmetic, so
`Int` is used directly; Python floor division `//` is `Int.fdiv`.
-/

/-- Models Python `str.endswith(pat)`: `pat` is a suffix of `s`. -/
def pyEndsWith (s pat : String) : Bool :=
  List.isSuffixOf pat.data s.data

/-- Models Python `str.startswith(pat)`: `pat` is a prefix of `s`. -/
def pyStartsWith (s pat : String) : Bool :=
  List.isPrefixOf pat.data s.data

/-- Embeds the `ImageAnnotation` value object
(src/asmithaxe/ai/cv/dataset/annotations.py lines 8-17): `image_filename`,
derived `image_format`, declared `image_width` and `image_height`. -/
structure ImageAnnot where
  image_filename : String
  image_format : String
  image_width : Int
  image_height : Int
  deriving Repr, DecidableEq

/-- Embeds `ImageAnnotation.__init__` (annotations.py lines 13-17).  The format
is `'png' if image_filename.endswith('png') else 'jpg'` — note that the source
tests the three-character suffix `png`, without a dot. -/
def mkImageAnnot (image_filename : String) (image_width image_height : Int) : ImageAnnot :=
  { image_filename := image_filename
    image_format := if pyEndsWith image_filename "png" then "png" else "jpg"
    image_width := image_width
    image_height := image_height }

/-- Embeds the `ObjectAnnotation` value object
(src/asmithaxe/ai/cv/dataset/annotations.py lines 20-30): the only attributes
set by `__init__` are `label`, `xmin`, `xmax`, `ymin`, `ymax`. -/
structure ObjectAnnot where
  label : String
  xmin : Int
  xmax : Int
  ymin : Int
  ymax : Int
  deriving Repr, DecidableEq

/-- One buffered row of the Catlin Seaview Survey CSV, as stored in
`image_to_annotations_dict` (cv annotation_parser.py lines 145-154).  Only the
`x`, `y` and `label` entries of the buffered dict are consulted by the patch
derivation; the remaining bookkeeping entries (`file_id`, `short_filename`,
`label_name`, `func_group`, `dataset`) are never read downstream and are
omitted from the embedding. -/
structure CsvRecord where
  x : Int
  y : Int
  label : String
  deriving Repr, DecidableEq

/-- Embeds the patch derivation and patch-fit filter of
`CatlinSeaviewSurveyCsvAnnotationFileParser.on_pipeline_start`
(src/asmithaxe/ai/cv/dataset/annotation_parser.py lines 169-187; the ai/dataset
variant, annotation_parser.py lines 160-178, is textually identical): for each
buffered record the patch
`xmin = x - patch_width // 2`, `xmax = x + patch_width // 2`,
`ymin = y - patch_height // 2`, `ymax = y + patch_height // 2`
is computed and the box is appended iff
`xmin > 0 and xmax < image_width and ymin > 0 and ymax < image_height`. -/
def catlinCollectBoxes (ia : ImageAnnot) (image_patch_width image_patch_height : Int)
    (records : List CsvRecord) : List ObjectAnnot :=
  records.filterMap (fun a =>
    let xmin := a.x - image_patch_width.fdiv 2
    let xmax := a.x + image_patch_width.fdiv 2
    let ymin := a.y - image_patch_height.fdiv 2
    let ymax := a.y + image_patch_height.fdiv 2
    if xmin > 0 ∧ xmax < ia.image_width ∧ ymin > 0 ∧ ymax < ia.image_height then
      some { label := a.label, xmin := xmin, xmax := xmax, ymin := ymin, ymax := ymax }
    else none)

/-- Embeds the per-image emission gate of the same method (cv lines 189-192):
the `(ImageAnnotation, [ObjectAnnotation])` unit is delivered to the registered
listeners only when at least one box survived the patch-fit filter.  `some u`
models delivering `u` to every listener; `none` models emitting nothing. -/
def catlinProcessImage (ia : ImageAnnot) (pw ph : Int) (records : List CsvRecord) :
    Option (ImageAnnot × List ObjectAnnot) :=
  let object_annots := catlinCollectBoxes ia pw ph records
  if object_annots.length > 0 then some (ia, object_annots) else none

/-- C1: every ObjectAnnotation emitted by the point-record (Catlin Seaview
Survey CSV) parser, with the patch derived by integer floor division from the
point and patch dimensions, satisfies the strict bounds
`xmin > 0 ∧ xmax < image_width ∧ ymin > 0 ∧ ymax < image_height`; a derived
patch violating any of these strict inequalities is discarded and never
emitted. -/
theorem c1_patch_fit_filter (ia : ImageAnnot) (pw ph : Int) (records : List CsvRecord)
    (u : ImageAnnot × List ObjectAnnot)
    (hu : catlinProcessImage ia pw ph records = some u) :
    ∀ oa ∈ u.2, oa.xmin > 0 ∧ oa.xmax < ia.image_width ∧
      oa.ymin > 0 ∧ oa.ymax < ia.image_height := by
  intro oa hoa
  simp only [catlinProcessImage] at hu
  split at hu
  · cases hu
    simp only [catlinCollectBoxes, List.mem_filterMap] at hoa
    obtain ⟨a, -, hEq⟩ := hoa
    split at hEq
    · rename_i hfit
      cases hEq
      exact ⟨hfit.1, hfit.2.1, hfit.2.2.1, hfit.2.2.2⟩
    · exact absurd hEq (by simp)
  · exact absurd hu (by simp)

/-- Witness for C1 at a concrete input: image 100×100, patch 20×20, points
(50,50) (accepted as box 40..60 × 40..60) and (5,5) (rejected). -/
theorem c1_patch_fit_filter_witness :
    (⟨"c", 40, 60, 40, 60⟩ : ObjectAnnot).xmin > 0 ∧
    (⟨"c", 40, 60, 40, 60⟩ : ObjectAnnot).xmax < (mkImageAnnot "i.jpg" 100 100).image_width ∧
    (⟨"c", 40, 60, 40, 60⟩ : ObjectAnnot).ymin > 0 ∧
    (⟨"c", 40, 60, 40, 60⟩ : ObjectAnnot).ymax < (mkImageAnnot "i.jpg" 100 100).image_height :=
  c1_patch_fit_filter (mkImageAnnot "i.jpg" 100 100) 20 20 [⟨50, 50, "c"⟩, ⟨5, 5, "d"⟩]
    (mkImageAnnot "i.jpg" 100 100, [⟨"c", 40, 60, 40, 60⟩]) (by decide)
    ⟨"c", 40, 60, 40, 60⟩ (by decide)

/-- Counterexample for C2 as stated: with the non-negative patch dimensions
`patch_width = patch_height = 0`, the point (50,50) in a 100×100 image derives
the degenerate box (50,50,50,50), which passes the patch-fit filter and is
emitted even though `xmin < xmax` fails. -/
theorem c2_degenerate_box_cex :
    catlinProcessImage (mkImageAnnot "i.jpg" 100 100) 0 0 [⟨50, 50, "c"⟩] =
      some (mkImageAnnot "i.jpg" 100 100, [⟨"c", 50, 50, 50, 50⟩]) ∧
    ¬ ((⟨"c", 50, 50, 50, 50⟩ : ObjectAnnot).xmin <
        (⟨"c", 50, 50, 50, 50⟩ : ObjectAnnot).xmax) := by
  decide

/-- C2 (amended): for patch_width ≥ 2 and patch_height ≥ 2 — i.e. whenever the
half-patch `patch_width // 2` and `patch_height // 2` are positive — every box
passing the patch-fit filter satisfies `xmin < xmax ∧ ymin < ymax`, with no
separate re-validation; for patch dimensions 0 or 1 the derived box is
degenerate and the filter does not reject it. -/
theorem c2_emitted_box_nondegenerate (ia : ImageAnnot) (pw ph : Int)
    (records : List CsvRecord) (hw : 2 ≤ pw) (hh : 2 ≤ ph) :
    ∀ oa ∈ catlinCollectBoxes ia pw ph records, oa.xmin < oa.xmax ∧ oa.ymin < oa.ymax := by
  have hw2 : 1 ≤ pw.fdiv 2 := by
    rw [Int.fdiv_eq_ediv _ (by norm_num)]
    have h := Int.ediv_le_ediv (by norm_num : (0 : Int) < 2) hw
    simpa using h
  have hh2 : 1 ≤ ph.fdiv 2 := by
    rw [Int.fdiv_eq_ediv _ (by norm_num)]
    have h := Int.ediv_le_ediv (by norm_num : (0 : Int) < 2) hh
    simpa using h
  intro oa hoa
  simp only [catlinCollectBoxes, List.mem_filterMap] at hoa
  obtain ⟨a, -, hEq⟩ := hoa
  split at hEq
  · cases hEq
    constructor
    · show a.x - pw.fdiv 2 < a.x + pw.fdiv 2
      linarith
    · show a.y - ph.fdiv 2 < a.y + ph.fdiv 2
      linarith
  · exact absurd hEq (by simp)

/-- Witness for the amended C2 at a concrete input: patch 20×20, image 100×100,
accepted point (50,50) yields box 40..60 × 40..60 with xmin < xmax, ymin < ymax. -/
theorem c2_emitted_box_nondegenerate_witness :
    (⟨"c", 40, 60, 40, 60⟩ : ObjectAnnot).xmin < (⟨"c", 40, 60, 40, 60⟩ : ObjectAnnot).xmax ∧
    (⟨"c", 40, 60, 40, 60⟩ : ObjectAnnot).ymin < (⟨"c", 40, 60, 40, 60⟩ : ObjectAnnot).ymax :=
  c2_emitted_box_nondegenerate (mkImageAnnot "i.jpg" 100 100) 20 20 [⟨50, 50, "c"⟩]
    (by norm_num) (by norm_num) ⟨"c", 40, 60, 40, 60⟩ (by decide)

/-- The state of a `LabelCollector` (src/asmithaxe/ai/dataset/label_collector.py
lines 16-26): the Python dict `unique_labels`, which preserves insertion order,
is embedded as an association list from label to assigned id. -/
abbrev LabelMap := List (String × Nat)

/-- Embeds `LabelCollector.register` (ai label_collector.py lines 28-38; the cv
variant registers identically inside `on_annotation_available`, cv
label_collector.py lines 25-36): a label absent from `unique_labels` is bound
to `len(unique_labels) + 1`; a label already present leaves the dict
unchanged. -/
def registerLabel (m : LabelMap) (label : String) : LabelMap :=
  if (List.lookup label m).isSome then m else m ++ [(label, m.length + 1)]

/-- Embeds `LabelCollector.find` (label_collector.py lines 40-47):
`unique_labels[label] if label in unique_labels else None`. -/
def findLabel (m : LabelMap) (label : String) : Option Nat :=
  List.lookup label m

/-- Registers a whole sequence of labels in order, starting from the given
collector state (the accumulated effect of the per-row `register` calls made
during a parse). -/
def registerAll (m : LabelMap) : List String → LabelMap
  | [] => m
  | l :: ls => registerAll (registerLabel m l) ls

/-- Modelled from the spec: the list of distinct labels in first-seen
(encounter) order, used to state the id-assignment-order half of C3. -/
def firstSeen (acc : List String) : List String → List String
  | [] => acc
  | l :: ls => firstSeen (if l ∈ acc then acc else acc ++ [l]) ls

/-- Helper: looking a key up in an appended association list consults the left
part first. -/
theorem lookup_append (a : String) (m n : LabelMap) :
    List.lookup a (m ++ n) = ((List.lookup a m).orElse fun _ => List.lookup a n) := by
  induction m with
  | nil => simp
  | cons p m ih =>
    obtain ⟨k, v⟩ := p
    cases hb : (a == k) with
    | true => simp [List.lookup_cons, hb]
    | false => simp [List.lookup_cons, hb, ih]

/-- Helper: a key is in the lookup domain iff it is among the first
components. -/
theorem lookup_isSome_iff_mem (a : String) (m : LabelMap) :
    (List.lookup a m).isSome = true ↔ a ∈ m.map Prod.fst := by
  induction m with
  | nil => simp
  | cons p m ih =>
    obtain ⟨k, v⟩ := p
    rw [List.lookup_cons]
    cases hb : (a == k) with
    | true =>
      have he : a = k := by simpa using hb
      simp [he]
    | false =>
      have hne : a ≠ k := by simpa using hb
      simp [hne, ih]

/-- Helper: registering any further label preserves an existing binding. -/
theorem registerLabel_preserves (m : LabelMap) (l s : String) (i : Nat)
    (h : findLabel m l = some i) : findLabel (registerLabel m s) l = some i := by
  unfold registerLabel
  split
  · exact h
  · unfold findLabel at h ⊢
    rw [lookup_append, h]
    rfl

/-- Helper: registering any further sequence of labels preserves an existing
binding. -/
theorem registerAll_preserves (ls : List String) (m : LabelMap) (l : String) (i : Nat)
    (h : findLabel m l = some i) : findLabel (registerAll m ls) l = some i := by
  induction ls generalizing m with
  | nil => exact h
  | cons s ls ih => exact ih _ (registerLabel_preserves m l s i h)

/-- Helper: immediately after `register(l)` the label `l` is bound. -/
theorem registerLabel_binds (m : LabelMap) (l : String) :
    ∃ i, findLabel (registerLabel m l) l = some i := by
  unfold registerLabel findLabel
  split
  · rename_i h
    exact Option.isSome_iff_exists.mp h
  · rename_i h
    rw [Option.not_isSome_iff_eq_none] at h
    rw [lookup_append, h]
    simp [List.lookup_cons]

/-- Helper: registering labels other than `l` does not create a binding
for `l`. -/
theorem registerAll_not_mem (ls : List String) (m : LabelMap) (l : String)
    (h : l ∉ ls) : findLabel (registerAll m ls) l = findLabel m l := by
  induction ls generalizing m with
  | nil => rfl
  | cons s ls ih =>
    have hne : l ≠ s := fun e => h (e ▸ List.mem_cons_self l ls)
    have hstep : findLabel (registerLabel m s) l = findLabel m l := by
      unfold registerLabel
      split
      · rfl
      · unfold findLabel
        rw [lookup_append]
        have h1 : List.lookup l [(s, m.length + 1)] = none := by
          simp [List.lookup_cons, beq_false_of_ne hne]
        cases hm : List.lookup l m <;> simp [h1, hm]
    have h2 : l ∉ ls := fun hmem => h (List.mem_cons_of_mem s hmem)
    show findLabel (registerAll (registerLabel m s) ls) l = findLabel m l
    rw [ih (registerLabel m s) h2, hstep]

/-- Helper: `registerAll` splits over list append. -/
theorem registerAll_append (xs ys : List String) (m : LabelMap) :
    registerAll m (xs ++ ys) = registerAll (registerAll m xs) ys := by
  induction xs generalizing m with
  | nil => rfl
  | cons x xs ih => exact ih (registerLabel m x)

/-- Helper: the assigned ids always form the dense range 1..N in insertion
order. -/
theorem registerAll_ids (ls : List String) (m : LabelMap)
    (h : m.map Prod.snd = List.range' 1 m.length) :
    (registerAll m ls).map Prod.snd = List.range' 1 (registerAll m ls).length := by
  induction ls generalizing m with
  | nil => exact h
  | cons s ls ih =>
    apply ih
    unfold registerLabel
    split
    · exact h
    · have hlen : (m ++ [(s, m.length + 1)]).length = m.length + 1 := by simp
      rw [List.map_append, h, hlen, List.range'_concat]
      simp [Nat.add_comm, Nat.one_mul]

/-- Helper: the keys of the collector are the distinct labels in first-seen
order. -/
theorem registerAll_keys (ls : List String) (m : LabelMap) :
    (registerAll m ls).map Prod.fst = firstSeen (m.map Prod.fst) ls := by
  induction ls generalizing m with
  | nil => rfl
  | cons s ls ih =>
    show (registerAll (registerLabel m s) ls).map Prod.fst = firstSeen _ (s :: ls)
    rw [ih (registerLabel m s)]
    show firstSeen _ ls = firstSeen (if s ∈ m.map Prod.fst then _ else _) ls
    congr 1
    unfold registerLabel
    split
    · rename_i hsome
      rw [if_pos ((lookup_isSome_iff_mem s m).mp hsome)]
    · rename_i hnone
      rw [if_neg (fun hmem => hnone ((lookup_isSome_iff_mem s m).mpr hmem))]
      simp

/-- C3: register is idempotent — the id assigned on the first `register(L)` is
returned by every subsequent `find(L)` no matter how many further labels
(including `L` again) are registered; the assigned ids are exactly 1..N in
first-registration order; and `find` on a never-registered label returns
`None` without fabricating an id. -/
theorem c3_label_registry (L : String) (pre suf seq : List String) (hL : L ∉ seq) :
    findLabel (registerAll [] (pre ++ L :: suf)) L = findLabel (registerAll [] (pre ++ [L])) L
    ∧ (registerAll [] seq).map Prod.snd = List.range' 1 (registerAll [] seq).length
    ∧ (registerAll [] seq).map Prod.fst = firstSeen [] seq
    ∧ findLabel (registerAll [] seq) L = none := by
  refine ⟨?_, ?_, ?_, ?_⟩
  · obtain ⟨i, hi⟩ := registerLabel_binds (registerAll [] pre) L
    have hsplit : registerAll ([] : LabelMap) (pre ++ L :: suf) =
        registerAll (registerLabel (registerAll [] pre) L) suf := by
      rw [registerAll_append]
      rfl
    have hone : registerAll ([] : LabelMap) (pre ++ [L]) =
        registerLabel (registerAll [] pre) L := by
      rw [registerAll_append]
      rfl
    rw [hsplit, hone, hi, registerAll_preserves suf _ L i hi]
  · exact registerAll_ids seq [] rfl
  · exact registerAll_keys seq []
  · rw [registerAll_not_mem seq [] L hL]
    rfl

/-- Witness for C3 at a concrete input: registering the sequence
a, x, x, b then looking up x, with never-registered label x absent from the
separately registered sequence a, b, a. -/
theorem c3_label_registry_witness :
    (findLabel (registerAll [] (["a"] ++ "x" :: ["x", "b"])) "x" =
      findLabel (registerAll [] (["a"] ++ ["x"])) "x")
    ∧ (registerAll [] ["a", "b", "a"]).map Prod.snd =
        List.range' 1 (registerAll [] ["a", "b", "a"]).length
    ∧ (registerAll [] ["a", "b", "a"]).map Prod.fst = firstSeen [] ["a", "b", "a"]
    ∧ findLabel (registerAll [] ["a", "b", "a"]) "x" = none :=
  c3_label_registry "x" ["a"] ["x", "b"] ["a", "b", "a"] (by decide)

/-- Pixel data is owned by the external PIL codec; it is modelled as an opaque
term recording its provenance: `source f` is the result of `Image.open(f)`,
`cropped p box` is `p.crop(box)` with the box given as
(left, upper, right, lower). -/
inductive Pixels where
  | source (filename : String)
  | cropped (p : Pixels) (left upper right lower : Int)
  deriving Repr, DecidableEq

/-- One `(pixels, ImageAnnotation, [ObjectAnnotation])` unit flowing through
the processing chain. -/
structure AnnotatedUnit where
  image : Pixels
  image_annot : ImageAnnot
  object_annots : List ObjectAnnot
  deriving Repr, DecidableEq

/-- Helper for `pySplitext`: the index of the last occurrence of `c` in `cs`,
or `none` (Python `str.rfind` returns -1). -/
def lastIndexOf (c : Char) (cs : List Char) : Option Nat :=
  (List.range cs.length).foldl
    (fun acc i => if cs.getD i c = c ∧ cs.get? i ≠ none then some i else acc) none

/-- Models CPython `posixpath.splitext` / `genericpath._splitext`: split at the
last dot, provided it lies after the last slash and the basename does not
consist of leading dots only up to it. -/
def pySplitext (s : String) : String × String :=
  let cs := s.data
  let sepIdx : Int := match lastIndexOf '/' cs with
    | some i => (i : Int)
    | none => -1
  let dotIdx : Int := match lastIndexOf '.' cs with
    | some i => (i : Int)
    | none => -1
  if sepIdx < dotIdx then
    let stemStart := (sepIdx + 1).toNat
    let leading := (cs.drop stemStart).take (dotIdx.toNat - stemStart)
    if leading.all (fun c => c == '.') then (s, "")
    else (⟨cs.take dotIdx.toNat⟩, ⟨cs.drop dotIdx.toNat⟩)
  else (s, "")

/-- Models the Python attribute access `object_annotation.class_id`
(cv image_processor.py line 93 and cv dataset_packager.py line 200):
`ObjectAnnotation.__init__` (cv annotations.py lines 25-30) sets only `label`,
`xmin`, `xmax`, `ymin` and `ymax`, so reading `class_id` raises
AttributeError unconditionally. -/
def getClassId (_oa : ObjectAnnot) : Except String String :=
  Except.error "AttributeError: class_id"

/-- Builds the derived ImageAnnotation of one crop
(cv image_processor.py lines 88-92; ai image_processor.py lines 88-92 are
identical): the filename gains a `_<crop_count>` tag between stem and
extension, while the declared `image_width`/`image_height` are taken unchanged
from the source annotation. -/
def cropImageAnnot (ia : ImageAnnot) (stem ext : String) (crop_count : Nat) : ImageAnnot :=
  mkImageAnnot (stem ++ "_" ++ toString crop_count ++ ext) ia.image_width ia.image_height

/-- Embeds the per-object loop of `CroppingImageProcessor.on_annotated_image_available`
(cv image_processor.py lines 80-104).  Each iteration crops the pixel buffer to
the box, builds the derived ImageAnnotation, then evaluates
`object_annotation.class_id`; the units forwarded to the listeners before an
exception are accumulated, and the first exception aborts the loop
(second component). -/
def croppingLoop (image : Pixels) (ia : ImageAnnot) (stem ext : String) :
    Nat → List ObjectAnnot → List AnnotatedUnit × Option String
  | _, [] => ([], none)
  | crop_count, oa :: rest =>
    let cropped_image := Pixels.cropped image oa.xmin oa.ymin oa.xmax oa.ymax
    let new_image_annot := cropImageAnnot ia stem ext crop_count
    match getClassId oa with
    | Except.error e => ([], some e)
    | Except.ok class_id =>
      let new_object_annot : ObjectAnnot :=
        { label := class_id
          xmin := 0
          xmax := oa.xmax - oa.xmin
          ymin := 0
          ymax := oa.ymax - oa.ymin }
      let unit : AnnotatedUnit :=
        { image := cropped_image, image_annot := new_image_annot,
          object_annots := [new_object_annot] }
      let (units, err) := croppingLoop image ia stem ext (crop_count + 1) rest
      (unit :: units, err)

/-- Embeds `CroppingImageProcessor.on_annotated_image_available`
(cv image_processor.py lines 76-104): split the filename, then run the
per-object crop loop starting from `crop_count = 0`.  The first component is
the list of derived units forwarded (in order) to the registered listeners;
the second is the uncaught exception, if any. -/
def croppingProcess (image : Pixels) (ia : ImageAnnot) (oas : List ObjectAnnot) :
    List AnnotatedUnit × Option String :=
  let split := pySplitext ia.image_filename
  croppingLoop image ia split.1 split.2 0 oas

/-- C4 (code bug evidence): on a unit with one object annotation the cv crop
stage forwards no derived unit at all — the `class_id` attribute access raises
AttributeError before the rebased ObjectAnnotation can be constructed, because
cv annotations.py defines the field `label`, not `class_id`.  The claim (and
spec §4.3) instead require exactly K = 1 rebased single-object unit. -/
theorem c4_crop_class_id_error :
    croppingProcess (Pixels.source "photo.jpg") (mkImageAnnot "photo.jpg" 100 50)
      [⟨"fish", 10, 20, 5, 15⟩] =
      ([], some "AttributeError: class_id") := by
  decide

/-- C5: every derived ImageAnnotation the crop stage constructs (both variants
build it the same way, cv/ai image_processor.py lines 88-92) declares exactly
the source image's `image_width` and `image_height`, unchanged by the crop. -/
theorem c5_crop_preserves_declared_dims (ia : ImageAnnot) (stem ext : String)
    (crop_count : Nat) :
    (cropImageAnnot ia stem ext crop_count).image_width = ia.image_width ∧
    (cropImageAnnot ia stem ext crop_count).image_height = ia.image_height := by
  constructor <;> rfl

/-- Embeds `ImageLoader.on_annotation_available`
(cv image_processor.py lines 40-50; `ImageLoader.load`, ai image_processor.py
lines 25-35, is identical): listeners are identified by their position in the
registration list.  The first component is the list of image files opened; the
second is the sequence of `(listener, pixels, ImageAnnotation,
[ObjectAnnotation])` invocations, in registration order. -/
def imageLoaderLoad (listeners : List Nat) (ia : ImageAnnot) (oas : List ObjectAnnot) :
    List String × List (Nat × Pixels × ImageAnnot × List ObjectAnnot) :=
  if oas.length > 0 then
    let image := Pixels.source ia.image_filename
    ([ia.image_filename], listeners.map (fun l => (l, image, ia, oas)))
  else ([], [])

/-- C6: the Image Materializer performs no load and forwards nothing when the
object-annotation sequence is empty; on a non-empty sequence it opens exactly
the unit's image path and forwards the loaded pixels with the unchanged unit to
every registered listener in registration order. -/
theorem c6_image_loader_gate (listeners : List Nat) (ia : ImageAnnot)
    (oa : ObjectAnnot) (oas : List ObjectAnnot) :
    imageLoaderLoad listeners ia [] = ([], [])
    ∧ (imageLoaderLoad listeners ia (oa :: oas)).1 = [ia.image_filename]
    ∧ (imageLoaderLoad listeners ia (oa :: oas)).2.map Prod.fst = listeners
    ∧ (imageLoaderLoad listeners ia (oa :: oas)).2 =
        listeners.map (fun l => (l, Pixels.source ia.image_filename, ia, oa :: oas)) := by
  refine ⟨rfl, ?_, ?_, ?_⟩
  · simp [imageLoaderLoad]
  · have h2 : (imageLoaderLoad listeners ia (oa :: oas)).2 =
        listeners.map (fun l => (l, Pixels.source ia.image_filename, ia, oa :: oas)) := by
      simp [imageLoaderLoad]
    rw [h2]
    clear h2
    induction listeners with
    | nil => rfl
    | cons x xs ih => simpa using ih
  · simp [imageLoaderLoad]

/-- Counterexample for C7 as stated: the filename `imgpng` does not end in the
four-character extension `.png`, yet the constructed ImageAnnotation has format
`png`, because the source tests `endswith('png')` without the dot
(cv annotations.py line 15). -/
theorem c7_png_without_dot_cex :
    (mkImageAnnot "imgpng" 10 10).image_format = "png" ∧
    pyEndsWith "imgpng" ".png" = false := by
  decide

/-- C7 (amended): for every non-empty image path, the constructed
ImageAnnotation has format `png` iff the path ends in the three characters
`png` (no dot required), and format `jpg` otherwise. -/
theorem c7_format_from_endswith_png (path : String) (w h : Int) (hp : path ≠ "") :
    ((mkImageAnnot path w h).image_format = "png" ↔ pyEndsWith path "png" = true)
    ∧ ((mkImageAnnot path w h).image_format = "jpg" ↔ pyEndsWith path "png" = false) := by
  unfold mkImageAnnot
  cases hb : pyEndsWith path "png" <;> simp [hb]

/-- Witness for the amended C7 at the concrete non-empty paths is provided by
`a.png`. -/
theorem c7_format_from_endswith_png_witness :
    ((mkImageAnnot "a.png" 10 10).image_format = "png" ↔ pyEndsWith "a.png" "png" = true)
    ∧ ((mkImageAnnot "a.png" 10 10).image_format = "jpg" ↔ pyEndsWith "a.png" "png" = false) :=
  c7_format_from_endswith_png "a.png" 10 10 (by decide)

/-- Models Python `os.path.basename` (POSIX): the part of the path after the
last slash. -/
def pyBasename (s : String) : String :=
  match lastIndexOf '/' s.data with
  | some i => ⟨s.data.drop (i + 1)⟩
  | none => s

/-- Models Python `os.path.join` (POSIX, two arguments): an absolute second
component replaces the first, otherwise the components are joined with a
single slash. -/
def pyJoin (a b : String) : String :=
  if pyStartsWith b "/" then b
  else if a = "" ∨ pyEndsWith a "/" then a ++ b
  else a ++ "/" ++ b

/-- Embeds `StoreByLabelDatasetPackager.on_annotated_image_available`
(cv dataset_packager.py lines 196-204; `StoreByLabelDatasetPackager.append`,
ai dataset_packager.py lines 181-189, is identical): on an empty annotation
list nothing happens; otherwise the destination directory is derived from
`object_annotations[0].class_id` and the image is saved under it.  The result
is `((new image_count, files written), uncaught exception)`. -/
def storeByLabelAppend (output_path : String) (image_count : Nat) (image : Pixels)
    (ia : ImageAnnot) (oas : List ObjectAnnot) :
    (Nat × List (String × Pixels)) × Option String :=
  match oas with
  | [] => ((image_count, []), none)
  | oa :: _ =>
    match getClassId oa with
    | Except.error e => ((image_count, []), some e)
    | Except.ok class_id =>
      let out := pyJoin output_path class_id
      ((image_count + 1, [(pyJoin out (pyBasename ia.image_filename), image)]), none)

/-- Embeds `StoreByFullFilenameDatasetPackager.on_annotated_image_available`
(cv dataset_packager.py lines 143-145; ai lines 130-132): the image is saved
unconditionally under the full filename (`image.copy()` is modelled as the
pixels themselves) and the counter is incremented; the object-annotation list
is never consulted. -/
def storeByFullFilenameAppend (output_path : String) (image_count : Nat) (image : Pixels)
    (ia : ImageAnnot) (_oas : List ObjectAnnot) : Nat × List (String × Pixels) :=
  (image_count + 1, [(pyJoin output_path ia.image_filename, image)])

/-- Embeds `StoreByShortFilenameDatasetPackager.on_annotated_image_available`
(cv dataset_packager.py lines 170-172; ai lines 155-157): the image is saved
unconditionally under the basename of the filename and the counter is
incremented; the object-annotation list is never consulted. -/
def storeByShortFilenameAppend (output_path : String) (image_count : Nat) (image : Pixels)
    (ia : ImageAnnot) (_oas : List ObjectAnnot) : Nat × List (String × Pixels) :=
  (image_count + 1, [(pyJoin output_path (pyBasename ia.image_filename), image)])

/-- C8 (code bug evidence): on a unit with at least one object annotation the
copy-by-label packager writes nothing and raises — the subdirectory is derived
from `object_annotations[0].class_id`, an attribute the cv ObjectAnnotation
does not define (its field is `label`, and the class docstring itself says the
subdirectory is based on the label) — while the claim requires exactly one
file under the first label's subdirectory.  The empty-list half of the claim
does hold: no output file and no count change. -/
theorem c8_store_by_label_class_id_error :
    storeByLabelAppend "out" 0 (Pixels.source "reef.jpg")
      (mkImageAnnot "reef.jpg" 100 100) [] = ((0, []), none)
    ∧ storeByLabelAppend "out" 0 (Pixels.source "reef.jpg")
        (mkImageAnnot "reef.jpg" 100 100) [⟨"coral", 10, 20, 10, 20⟩] =
        ((0, []), some "AttributeError: class_id") := by
  constructor <;> rfl

/-- C10: packagers that copy by full path or by basename ignore the
object-annotation list entirely: even on a unit with zero object annotations
each writes exactly one file and increments its image count, unlike the
copy-by-label packager, which skips such units. -/
theorem c10_unconditional_store (output_path : String) (image_count : Nat)
    (image : Pixels) (ia : ImageAnnot) :
    (storeByFullFilenameAppend output_path image_count image ia []).1 = image_count + 1
    ∧ (storeByFullFilenameAppend output_path image_count image ia []).2.length = 1
    ∧ (storeByShortFilenameAppend output_path image_count image ia []).1 = image_count + 1
    ∧ (storeByShortFilenameAppend output_path image_count image ia []).2.length = 1
    ∧ (storeByLabelAppend output_path image_count image ia []).1 = (image_count, []) := by
  exact ⟨rfl, rfl, rfl, rfl, rfl⟩

/-- A lifecycle call on the Pipeline controller
(cv pipeline.py lines 18-34). -/
inductive PipelineCall where
  | start
  | stop
  deriving Repr, DecidableEq

/-- One notification delivered to a registered PipelineStateListener,
identified by its position in the registration list. -/
inductive PipelineEvent where
  | started (listener : Nat)
  | stopped (listener : Nat)
  deriving Repr, DecidableEq

/-- Embeds `Pipeline.start` / `Pipeline.stop` (cv pipeline.py lines 18-34):
the method bodies consult no state at all — each call simply notifies every
registered listener in registration order.  The trace of notifications of a
call sequence is the concatenation of the per-call notifications. -/
def pipelineTrace (listeners : List Nat) (calls : List PipelineCall) : List PipelineEvent :=
  calls.foldl
    (fun trace c =>
      trace ++ match c with
        | PipelineCall.start => listeners.map PipelineEvent.started
        | PipelineCall.stop => listeners.map PipelineEvent.stopped)
    []

/-- Counterexample for C9 as stated: with one registered listener, the call
sequence start; stop; start completes without any error and delivers a second
`on_pipeline_start` notification — the listener is started twice — instead of
failing fast. -/
theorem c9_restart_not_rejected_cex :
    pipelineTrace [0] [PipelineCall.start, PipelineCall.stop, PipelineCall.start] =
      [PipelineEvent.started 0, PipelineEvent.stopped 0, PipelineEvent.started 0]
    ∧ (pipelineTrace [0] [PipelineCall.start, PipelineCall.stop, PipelineCall.start]).count
        (PipelineEvent.started 0) = 2 := by
  constructor <;> rfl

/-- C9 (amended): the Pipeline controller keeps no lifecycle state; every
`start()` call — in particular a second one after `stop()` — unconditionally
re-invokes `on_pipeline_start` on every registered listener in registration
order, rather than failing fast. -/
theorem c9_start_always_notifies (listeners : List Nat) (calls : List PipelineCall) :
    pipelineTrace listeners (calls ++ [PipelineCall.start]) =
      pipelineTrace listeners calls ++ listeners.map PipelineEvent.started := by
  unfold pipelineTrace
  rw [List.foldl_append]
  rfl
